import Mathlib

/-!
Verification of the role-scoped academic records service
(`server.js`, `routes/*.js`, `models/*.js`).

The route handlers are shallowly embedded as pure Lean functions over an
explicit database value.  Mongo documents become structures; `ObjectId`s
become `Nat`; `Date` values become `Nat` (millisecond timestamps, calendar
day granularity where the code normalises); numeric scores become `Rat`
(exact, matching the small integral doubles the code manipulates);
`findById` / `findOne` become `List.find?`; `document.save()` on a fetched
document becomes replacement of the first matching list entry; HTTP
responses become an explicit result type carrying the status code.

The credential hash on `User` and the out-of-scope authentication layer
are not modelled: every handler receives the already-authenticated
identity `{id, role}` exactly as `req.user`.  Caller-specified `sort`
query parameters (dynamic field names) are not modelled; each list
handler applies its hard-coded default sort, and the properties proved
below are stable under any permutation of the result page.
-/

namespace School

/-- Roles, per the `enum` on `userSchema.role` in `models/User.js`. -/
inductive Role where
  | admin
  | teacher
  | student
deriving DecidableEq, Repr

/-- The authenticated caller, `req.user` after `authenticateToken`. -/
structure Identity where
  id : Nat
  role : Role
deriving DecidableEq, Repr

/-- `userSchema` of `models/User.js` (credential hash not modelled). -/
structure User where
  id : Nat
  username : String
  role : Role
  email : String
  firstName : String
  lastName : String
deriving DecidableEq, Repr

/-- `courseSchema` of `models/Course.js`.  Every course in play has been
created through `POST /api/courses`, which always assigns a `teacherId`,
so the field is modelled as required. -/
structure Course where
  id : Nat
  name : String
  courseCode : String
  description : String
  teacherId : Nat
  students : List Nat
deriving DecidableEq, Repr

/-- `gradeSchema` of `models/Grade.js`. -/
structure Grade where
  id : Nat
  studentId : Nat
  courseId : Nat
  assignmentId : Option Nat
  score : Rat
  comment : Option String
  gradedBy : Nat
  gradedAt : Nat
deriving DecidableEq, Repr

/-- `attendanceSchema.status` enum of `models/Attendance.js`. -/
inductive AttStatus where
  | absent
  | excused
deriving DecidableEq, Repr

/-- `attendanceSchema` of `models/Attendance.js`.  Records are addressed
by the `(studentId, courseId, date)` key, so no separate `_id` is kept. -/
structure Attendance where
  studentId : Nat
  courseId : Nat
  date : Nat
  status : AttStatus
  reason : Option String
  recordedBy : Nat
  recordedAt : Nat
deriving DecidableEq, Repr

/-- `infractionSchema.type` enum of `models/Infraction.js`. -/
inductive InfType where
  | behavioral
  | academic
  | attendance
  | other
deriving DecidableEq, Repr

/-- A stored infraction document.  The mongoose schema in
`models/Infraction.js` declares only `studentId`, `type`, `description`,
`date` and `reportedBy`; `severity`, `resolution` and `resolved` are kept
as `Option` fields so that `strictSaveInfraction` can record that the
schema never stores them (mongoose default strict mode discards writes to
undeclared paths). -/
structure StoredInfraction where
  studentId : Nat
  type : InfType
  description : String
  date : Nat
  reportedBy : Nat
  severity : Option String
  resolution : Option String
  resolved : Option Bool
deriving DecidableEq, Repr

/-- The whole persistent store.  `nextId` models ObjectId generation for
newly inserted documents. -/
structure DB where
  users : List User
  courses : List Course
  grades : List Grade
  attendance : List Attendance
  infractions : List StoredInfraction
  nextId : Nat
deriving DecidableEq, Repr

/-- An HTTP response: `ok status value` or `err status message`. -/
inductive HResp (α : Type) where
  | ok : Nat → α → HResp α
  | err : Nat → String → HResp α
deriving DecidableEq, Repr

/-- The `pagination` object returned by list endpoints:
`{ total, page, pages: Math.ceil(total/limit) }`. -/
structure Pagination where
  total : Nat
  page : Nat
  pages : Nat
deriving DecidableEq, Repr

/-- `Math.ceil(total / limit)` for positive `limit`. -/
def ceilDiv (total limit : Nat) : Nat :=
  (total + limit - 1) / limit

/-- `Course.findById(cid)`. -/
def findCourse (db : DB) (cid : Nat) : Option Course :=
  db.courses.find? (fun c => c.id = cid)

/-- `User.findById(uid)`. -/
def findUser (db : DB) (uid : Nat) : Option User :=
  db.users.find? (fun x => x.id = uid)

/-- `User.findOne({ _id: uid, role: 'student' })`. -/
def findStudent (db : DB) (uid : Nat) : Option User :=
  db.users.find? (fun x => x.id = uid && x.role = Role.student)

/-- `Course.find({ teacherId: tid }).select('_id')` followed by
`.map(course => course._id)`. -/
def ownedCourseIds (db : DB) (tid : Nat) : List Nat :=
  (db.courses.filter (fun c => c.teacherId = tid)).map Course.id

/-- Replace the first element satisfying `p` by its image under `f`
(the effect of fetching a single document and calling `.save()`). -/
def updateFirst (p : α → Bool) (f : α → α) : List α → List α
  | [] => []
  | a :: t => if p a then f a :: t else a :: updateFirst p f t

/-!  ### GET /api/grades (`routes/grades.js`)  -/

/-- The mongo query object built by `GET /api/grades`: optional equality
filters on `studentId` and `courseId`, and the `$in` filter the teacher
branch installs on `courseId`. -/
structure GradeQuery where
  studentId : Option Nat
  courseId : Option Nat
  courseIdIn : Option (List Nat)
deriving DecidableEq, Repr

/-- Whether a grade document matches a `GradeQuery`. -/
def gradeMatches (q : GradeQuery) (g : Grade) : Bool :=
  (match q.studentId with
   | some s => g.studentId = s
   | none => true) &&
  (match q.courseId with
   | some c => g.courseId = c
   | none => true) &&
  (match q.courseIdIn with
   | some cs => cs.contains g.courseId
   | none => true)

/-- `GET /api/grades`: caller filters `studentId`/`courseId`, pagination
`page`/`limit` (defaults 1 and 20 at the call site).  Students are forced
onto their own `studentId`; a teacher with neither filter is restricted
to courses they teach via `$in`; a teacher naming a `courseId` must own
that course or gets 403; a teacher naming only a `studentId` falls into
the final `else` branch and no course restriction is added.  Default sort
is `gradedAt` descending. -/
def listGrades (db : DB) (u : Identity) (studentIdq courseIdq : Option Nat)
    (page limit : Nat) : HResp (List Grade × Pagination) :=
  let q0 : GradeQuery := { studentId := studentIdq, courseId := courseIdq, courseIdIn := none }
  let scopedQ : HResp GradeQuery :=
    match u.role with
    | Role.student => HResp.ok 200 { q0 with studentId := some u.id }
    | Role.teacher =>
        if courseIdq.isNone && studentIdq.isNone then
          HResp.ok 200 { q0 with courseIdIn := some (ownedCourseIds db u.id) }
        else
          match courseIdq with
          | some cid =>
              match findCourse db cid with
              | some c =>
                  if c.teacherId = u.id then HResp.ok 200 q0
                  else HResp.err 403 "Access denied to this course"
              | none => HResp.err 403 "Access denied to this course"
          | none => HResp.ok 200 q0
    | Role.admin => HResp.ok 200 q0
  match scopedQ with
  | HResp.err s m => HResp.err s m
  | HResp.ok _ q =>
      let matching := db.grades.filter (gradeMatches q)
      let sorted := List.insertionSort (fun g1 g2 => g2.gradedAt ≤ g1.gradedAt) matching
      let pageItems := (sorted.drop ((page - 1) * limit)).take limit
      HResp.ok 200 (pageItems, { total := matching.length, page := page, pages := ceilDiv matching.length limit })

/-!  ### POST /api/grades (`routes/grades.js`)  -/

/-- `POST /api/grades`.  The route is guarded by
`authorizeRoles(['admin','teacher'])`.  The required-field check
`!studentId || !courseId || !score` uses JS truthiness, so a score of `0`
is also rejected as missing.  Then: student must exist with role
`student` (400), course must exist (400), student must be enrolled
(400), and a teacher must own the course (403). -/
def createGrade (db : DB) (u : Identity) (studentIdq courseIdq : Option Nat)
    (assignmentIdq : Option Nat) (scoreq : Option Rat) (commentq : Option String)
    (now : Nat) : HResp (DB × Grade) :=
  if !(u.role = Role.admin || u.role = Role.teacher) then
    HResp.err 403 "Access denied. Insufficient permissions."
  else match studentIdq, courseIdq, scoreq with
  | some sid, some cid, some sc =>
      if sc = 0 then
        HResp.err 400 "Student ID, Course ID, and score are required"
      else match findStudent db sid with
      | none => HResp.err 400 "Invalid student ID"
      | some _ =>
          match findCourse db cid with
          | none => HResp.err 400 "Invalid course ID"
          | some course =>
              if !(course.students.contains sid) then
                HResp.err 400 "Student is not enrolled in this course"
              else if u.role = Role.teacher && course.teacherId ≠ u.id then
                HResp.err 403 "You can only grade students in courses you teach"
              else
                let g : Grade :=
                  { id := db.nextId, studentId := sid, courseId := cid,
                    assignmentId := assignmentIdq, score := sc, comment := commentq,
                    gradedBy := u.id, gradedAt := now }
                HResp.ok 201 ({ db with grades := db.grades ++ [g], nextId := db.nextId + 1 }, g)
  | _, _, _ => HResp.err 400 "Student ID, Course ID, and score are required"

/-!  ### POST /api/attendance and POST /api/attendance/bulk
(`routes/attendance.js`)  -/

/-- The `(studentId, courseId, date)` key of an attendance record. -/
def attKey (a : Attendance) : Nat × Nat × Nat :=
  (a.studentId, a.courseId, a.date)

/-- The lookup predicate `{ studentId, courseId, date: new Date(date) }`. -/
def attKeyMatch (sid cid d : Nat) (a : Attendance) : Bool :=
  a.studentId = sid && a.courseId = cid && a.date = d

/-- `POST /api/attendance`.  Guarded by
`authorizeRoles(['admin','teacher'])`.  Order of checks: course existence
(404), teacher ownership (403), enrollment (400), then a lookup for an
existing record with the same `(studentId, courseId, date)` key: if one
exists the request is rejected with 400 and the store is untouched;
otherwise a new record is inserted. -/
def createAttendance (db : DB) (u : Identity) (studentId courseId date : Nat)
    (status : AttStatus) (reason : Option String) (now : Nat) :
    HResp (DB × Attendance) :=
  if !(u.role = Role.admin || u.role = Role.teacher) then
    HResp.err 403 "Access denied. Insufficient permissions."
  else match findCourse db courseId with
  | none => HResp.err 404 "Course not found"
  | some course =>
      if u.role = Role.teacher && course.teacherId ≠ u.id then
        HResp.err 403 "Access denied"
      else if !(course.students.contains studentId) then
        HResp.err 400 "Student is not enrolled in this course"
      else match db.attendance.find? (attKeyMatch studentId courseId date) with
      | some _ =>
          HResp.err 400 "Attendance record already exists for this date. Use PUT to update."
      | none =>
          let a : Attendance :=
            { studentId := studentId, courseId := courseId, date := date,
              status := status, reason := reason, recordedBy := u.id, recordedAt := now }
          HResp.ok 201 ({ db with attendance := db.attendance ++ [a] }, a)

/-- `Attendance.findOneAndUpdate({studentId, courseId, date}, {$set: ...},
{new: true, upsert: true})`: overwrite the first record with the given
key, or insert a new one when none exists; returns the new store and the
post-update document. -/
def upsertAttendance (store : List Attendance) (sid cid d : Nat)
    (status : AttStatus) (reason : Option String) (uid now : Nat) :
    List Attendance × Attendance :=
  let setFields := fun (a : Attendance) =>
    { a with status := status, reason := reason, recordedBy := uid, recordedAt := now }
  match store.find? (attKeyMatch sid cid d) with
  | some a0 =>
      (updateFirst (attKeyMatch sid cid d) setFields store, setFields a0)
  | none =>
      let a : Attendance :=
        { studentId := sid, courseId := cid, date := d,
          status := status, reason := reason, recordedBy := uid, recordedAt := now }
      (store ++ [a], a)

/-- One element of the `records` array of `POST /api/attendance/bulk`. -/
structure BulkRecord where
  studentId : Nat
  status : AttStatus
  reason : Option String
deriving DecidableEq, Repr

/-- One entry of the `errors` array in the bulk response. -/
structure BulkError where
  studentId : Nat
  message : String
deriving DecidableEq, Repr

/-- The per-record loop of `POST /api/attendance/bulk`: each record is
checked for enrollment independently; an unenrolled student yields an
error entry and `continue`; an enrolled one is upserted by the
`(studentId, courseId, date)` key.  Returns the final store, the
`results` list and the `errors` list in encounter order. -/
def processBulk (course : Course) (uid cid d now : Nat) :
    List BulkRecord → List Attendance → List Attendance × List Attendance × List BulkError
  | [], store => (store, [], [])
  | r :: rs, store =>
      if course.students.contains r.studentId then
        let step := upsertAttendance store r.studentId cid d r.status r.reason uid now
        let rest := processBulk course uid cid d now rs step.1
        (rest.1, step.2 :: rest.2.1, rest.2.2)
      else
        let rest := processBulk course uid cid d now rs store
        (rest.1, rest.2.1,
          { studentId := r.studentId, message := "Student is not enrolled in this course" } :: rest.2.2)

/-- `POST /api/attendance/bulk`.  Guarded by
`authorizeRoles(['admin','teacher'])`.  Request-level checks: the three
body fields must be present (400), the course must exist (404), a teacher
must own it (403).  The per-record loop never aborts; the response is
always status 200 with both `results` and `errors`. -/
def bulkAttendance (db : DB) (u : Identity) (courseIdq dateq : Option Nat)
    (recordsq : Option (List BulkRecord)) (now : Nat) :
    HResp (DB × List Attendance × List BulkError) :=
  if !(u.role = Role.admin || u.role = Role.teacher) then
    HResp.err 403 "Access denied. Insufficient permissions."
  else match courseIdq, dateq, recordsq with
  | some cid, some d, some records =>
      match findCourse db cid with
      | none => HResp.err 404 "Course not found"
      | some course =>
          if u.role = Role.teacher && course.teacherId ≠ u.id then
            HResp.err 403 "Access denied"
          else
            let out := processBulk course u.id cid d now records db.attendance
            HResp.ok 200 ({ db with attendance := out.1 }, out.2.1, out.2.2)
  | _, _, _ => HResp.err 400 "Invalid request data"

/-!  ### GET /api/grades/stats/course/:courseId (`routes/grades.js`)  -/

/-- The `stats` object of the statistics response.  The zero-grade branch
returns `null` for every field but `count`; `null` is modelled as
`none`. -/
structure Stats where
  count : Nat
  average : Option Rat
  highest : Option Rat
  lowest : Option Rat
  median : Option Rat
deriving DecidableEq, Repr

/-- `Math.max(...scores)` for the nonempty lists the route applies it to. -/
def maxList : List Rat → Rat
  | [] => 0
  | h :: t => t.foldl max h

/-- `Math.min(...scores)` for the nonempty lists the route applies it to. -/
def minList : List Rat → Rat
  | [] => 0
  | h :: t => t.foldl min h

/-- The scores of all grades of a course:
`Grade.find({ courseId }).select('score')` followed by
`grades.map(grade => grade.score)`. -/
def courseScores (db : DB) (cid : Nat) : List Rat :=
  (db.grades.filter (fun g => g.courseId = cid)).map Grade.score

/-- `GET /api/grades/stats/course/:courseId`.  Course must exist (404);
a student caller must be enrolled (403); a teacher caller must own the
course (403).  With no grades the response is `count: 0` and `null` for
the other four fields.  Otherwise: `average = sum/count`,
`highest = Math.max`, `lowest = Math.min`, and the median is taken from
the ascending-sorted copy of the scores: for an even count the average of
the two middle values, for an odd count the middle value. -/
def gradeStats (db : DB) (u : Identity) (cid : Nat) : HResp Stats :=
  match findCourse db cid with
  | none => HResp.err 404 "Course not found"
  | some course =>
      if u.role = Role.student && !(course.students.contains u.id) then
        HResp.err 403 "You are not enrolled in this course"
      else if u.role = Role.teacher && course.teacherId ≠ u.id then
        HResp.err 403 "You do not teach this course"
      else
        let scores := courseScores db cid
        if scores.length = 0 then
          HResp.ok 200 { count := 0, average := none, highest := none, lowest := none, median := none }
        else
          let count := scores.length
          let sum := scores.foldl (fun a b => a + b) 0
          let sortedScores := List.insertionSort (fun a b => a ≤ b) scores
          let midIndex := count / 2
          let median :=
            if count % 2 = 0 then
              (sortedScores.getD (midIndex - 1) 0 + sortedScores.getD midIndex 0) / 2
            else
              sortedScores.getD midIndex 0
          HResp.ok 200
            { count := count, average := some (sum / (count : Rat)),
              highest := some (maxList scores), lowest := some (minList scores),
              median := some median }

/-!  ### POST /api/courses (`routes/courses.js`)  -/

/-- `POST /api/courses`.  Guarded by `authorizeRoles(['admin','teacher'])`.
Checks: duplicate `courseCode` (400); when a `teacherId` is supplied it
must belong to an existing user with role `teacher` (400) — there is no
check that a teacher caller supplies their own id.  The new course's
`teacherId` is `teacherId || req.user.id`. -/
def createCourse (db : DB) (u : Identity) (name courseCode description : String)
    (teacherIdq : Option Nat) : HResp (DB × Course) :=
  if !(u.role = Role.admin || u.role = Role.teacher) then
    HResp.err 403 "Access denied. Insufficient permissions."
  else if (db.courses.find? (fun c => c.courseCode = courseCode)).isSome then
    HResp.err 400 "Course with this code already exists"
  else
    let insert := fun (tid : Nat) =>
      let c : Course :=
        { id := db.nextId, name := name, courseCode := courseCode,
          description := description, teacherId := tid, students := [] }
      HResp.ok 201 ({ db with courses := db.courses ++ [c], nextId := db.nextId + 1 }, c)
    match teacherIdq with
    | some tid =>
        match db.users.find? (fun x => x.id = tid && x.role = Role.teacher) with
        | none => HResp.err 400 "Invalid teacher ID"
        | some _ => insert tid
    | none => insert u.id

/-!  ### POST /api/courses/:id/enroll and
DELETE /api/courses/:id/students/:studentId (`routes/courses.js`)  -/

/-- `POST /api/courses/:id/enroll`.  Guarded by
`authorizeRoles(['admin','teacher'])`.  Checks: course exists (404),
teacher owns it (403), the body's `studentId` names an existing user with
role `student` (400), the student is not already in `course.students`
(400 duplicate); then the student is pushed onto the list and the course
saved. -/
def enrollStudent (db : DB) (u : Identity) (courseIdP : Nat)
    (studentIdq : Option Nat) : HResp DB :=
  if !(u.role = Role.admin || u.role = Role.teacher) then
    HResp.err 403 "Access denied. Insufficient permissions."
  else match findCourse db courseIdP with
  | none => HResp.err 404 "Course not found"
  | some course =>
      if u.role = Role.teacher && course.teacherId ≠ u.id then
        HResp.err 403 "Access denied"
      else match studentIdq with
      | none => HResp.err 400 "Invalid student ID"
      | some sid =>
          match findStudent db sid with
          | none => HResp.err 400 "Invalid student ID"
          | some _ =>
              if course.students.contains sid then
                HResp.err 400 "Student already enrolled in this course"
              else
                HResp.ok 200
                  { db with courses :=
                      (updateFirst (fun c => c.id = courseIdP)
                        (fun c => { c with students := c.students ++ [sid] }) db.courses) }

/-- `DELETE /api/courses/:id/students/:studentId`.  Guarded by
`authorizeRoles(['admin','teacher'])`.  Checks: course exists (404),
teacher owns it (403); `course.students` is then filtered to drop the
given id — with no check that the student was enrolled — and the course
saved.  Always succeeds once the checks pass. -/
def unenrollStudent (db : DB) (u : Identity) (courseIdP studentIdP : Nat) : HResp DB :=
  if !(u.role = Role.admin || u.role = Role.teacher) then
    HResp.err 403 "Access denied. Insufficient permissions."
  else match findCourse db courseIdP with
  | none => HResp.err 404 "Course not found"
  | some course =>
      if u.role = Role.teacher && course.teacherId ≠ u.id then
        HResp.err 403 "Access denied"
      else
        HResp.ok 200
          { db with courses :=
              (updateFirst (fun c => c.id = courseIdP)
                (fun c => { c with students := c.students.filter (fun x => x ≠ studentIdP) })
                db.courses) }

/-!  ### GET /api/users (`routes/users.js`)  -/

/-- Boolean check that `n` occurs as a prefix slice of `h`. -/
def startsWithCL : List Char → List Char → Bool
  | [], _ => true
  | _ :: _, [] => false
  | a :: as, b :: bs => a = b && startsWithCL as bs

/-- Boolean check that `n` occurs as a contiguous slice of `h`. -/
def sliceOfCL (n : List Char) : List Char → Bool
  | [] => startsWithCL n []
  | b :: bs => startsWithCL n (b :: bs) || sliceOfCL n bs

/-- Case-insensitive substring match, the effect of
`{ $regex: search, $options: 'i' }` on a plain search string. -/
def containsCI (hay pat : String) : Bool :=
  sliceOfCL pat.toLower.data hay.toLower.data

/-- The `$or` search clause of `GET /api/users`, matching `firstName`,
`lastName`, `email` or `username` case-insensitively. -/
def userMatchesSearch (s : String) (x : User) : Bool :=
  containsCI x.firstName s || containsCI x.lastName s ||
  containsCI x.email s || containsCI x.username s

/-- The default sort `{ lastName: 1, firstName: 1 }`. -/
def userLe (a b : User) : Prop :=
  a.lastName < b.lastName ∨ (a.lastName = b.lastName ∧ a.firstName ≤ b.firstName)

instance : DecidableRel userLe := by
  intro a b
  unfold userLe
  infer_instance

/-- `GET /api/users`.  Callers other than admin and teacher get 403.  The
base query is hard-coded to `{ role: 'student' }` for every caller; an
optional search clause is AND-ed on; default sort `lastName, firstName`
ascending; pagination as elsewhere (defaults page 1, limit 10 at the call
site).  `select('-password')` is the identity here because the credential
hash is not modelled. -/
def listUsers (db : DB) (u : Identity) (searchq : Option String)
    (page limit : Nat) : HResp (List User × Pagination) :=
  if u.role ≠ Role.admin && u.role ≠ Role.teacher then
    HResp.err 403 "Access denied"
  else
    let base := db.users.filter (fun x => x.role = Role.student)
    let filtered :=
      match searchq with
      | none => base
      | some s => base.filter (userMatchesSearch s)
    let sorted := List.insertionSort userLe filtered
    let pageItems := (sorted.drop ((page - 1) * limit)).take limit
    HResp.ok 200 (pageItems, { total := filtered.length, page := page, pages := ceilDiv filtered.length limit })

/-!  ### POST /api/infractions (`routes/infractions.js`)  -/

/-- The object literal the route passes to `new Infraction(...)`:
`severity: severity || 'minor'`, `date: date || Date.now()`,
`resolved: !!resolution` (true exactly when `resolution` is a nonempty
string). -/
structure InfractionInput where
  studentId : Nat
  type : InfType
  description : String
  severity : String
  date : Nat
  reportedBy : Nat
  resolution : Option String
  resolved : Bool
deriving DecidableEq, Repr

/-- Constructing and saving an `Infraction` document.  `infractionSchema`
in `models/Infraction.js` declares only `studentId`, `type`,
`description`, `date` and `reportedBy`; under mongoose's default strict
mode the values assigned to the undeclared paths `severity`, `resolution`
and `resolved` are discarded, so the stored document carries none of
them. -/
def strictSaveInfraction (d : InfractionInput) : StoredInfraction :=
  { studentId := d.studentId, type := d.type, description := d.description,
    date := d.date, reportedBy := d.reportedBy,
    severity := none, resolution := none, resolved := none }

/-- `POST /api/infractions`.  Guarded by
`authorizeRoles(['admin','teacher'])`.  The named student must exist with
role `student` (404); then the input document is built — with
`severity || 'minor'` (JS falsiness: an empty string also defaults),
`date || Date.now()`, and `resolved: !!resolution` — and saved through
the schema. -/
def createInfraction (db : DB) (u : Identity) (studentIdq : Option Nat)
    (type : InfType) (description : String) (severityq : Option String)
    (dateq : Option Nat) (resolutionq : Option String) (now : Nat) :
    HResp (DB × StoredInfraction) :=
  if !(u.role = Role.admin || u.role = Role.teacher) then
    HResp.err 403 "Access denied. Insufficient permissions."
  else match studentIdq with
  | none => HResp.err 404 "Student not found"
  | some sid =>
      match findStudent db sid with
      | none => HResp.err 404 "Student not found"
      | some _ =>
          let input : InfractionInput :=
            { studentId := sid, type := type, description := description,
              severity :=
                match severityq with
                | some s => if s = "" then "minor" else s
                | none => "minor",
              date :=
                match dateq with
                | some d => if d = 0 then now else d
                | none => now,
              reportedBy := u.id,
              resolution := resolutionq,
              resolved := !((resolutionq.getD "") == "") }
          let saved := strictSaveInfraction input
          HResp.ok 201 ({ db with infractions := db.infractions ++ [saved] }, saved)

/-!  ### Concrete sample stores used by the closed theorems below  -/

/-- Teacher 1. -/
def teacher1 : User :=
  { id := 1, username := "t1", role := Role.teacher, email := "t1@x", firstName := "Tara", lastName := "One" }

/-- Teacher 2. -/
def teacher2 : User :=
  { id := 2, username := "t2", role := Role.teacher, email := "t2@x", firstName := "Tom", lastName := "Two" }

/-- Student 5. -/
def student5 : User :=
  { id := 5, username := "s5", role := Role.student, email := "s5@x", firstName := "Sam", lastName := "Five" }

/-- Student 6. -/
def student6 : User :=
  { id := 6, username := "s6", role := Role.student, email := "s6@x", firstName := "Sue", lastName := "Six" }

/-- Course 10, taught by teacher 1, with student 5 enrolled. -/
def course10 : Course :=
  { id := 10, name := "Algebra", courseCode := "ALG1", description := "", teacherId := 1, students := [5] }

/-- Course 20, taught by teacher 2, with student 5 enrolled. -/
def course20 : Course :=
  { id := 20, name := "Biology", courseCode := "BIO1", description := "", teacherId := 2, students := [5] }

/-- A grade for student 5 in course 10. -/
def grade100 : Grade :=
  { id := 100, studentId := 5, courseId := 10, assignmentId := none, score := 90,
    comment := none, gradedBy := 1, gradedAt := 1 }

/-- A grade for student 5 in course 20 — a course teacher 1 does not teach. -/
def grade101 : Grade :=
  { id := 101, studentId := 5, courseId := 20, assignmentId := none, score := 70,
    comment := none, gradedBy := 2, gradedAt := 2 }

/-- Store with two teachers, two courses (one per teacher) and a grade for
student 5 in each course. -/
def dbScope : DB :=
  { users := [teacher1, teacher2, student5, student6],
    courses := [course10, course20],
    grades := [grade100, grade101],
    attendance := [{ studentId := 5, courseId := 10, date := 3, status := AttStatus.absent,
                     reason := none, recordedBy := 1, recordedAt := 3 }],
    infractions := [], nextId := 200 }

/-- Admin identity. -/
def adminU : Identity := { id := 0, role := Role.admin }

/-- Teacher 1's identity. -/
def teacher1U : Identity := { id := 1, role := Role.teacher }

/-- Store for the statistics theorems: course 10 with scores
60, 70, 80, 90 (inserted unsorted), course 11 with scores 60, 70, 80, and
course 12 with no grades. -/
def dbStats : DB :=
  { users := [teacher1, student5],
    courses := [course10,
      { id := 11, name := "Chem", courseCode := "CHM1", description := "", teacherId := 1, students := [5] },
      { id := 12, name := "Art", courseCode := "ART1", description := "", teacherId := 1, students := [5] }],
    grades :=
      [{ id := 1, studentId := 5, courseId := 10, assignmentId := none, score := 80, comment := none, gradedBy := 1, gradedAt := 1 },
       { id := 2, studentId := 5, courseId := 10, assignmentId := none, score := 60, comment := none, gradedBy := 1, gradedAt := 2 },
       { id := 3, studentId := 5, courseId := 10, assignmentId := none, score := 90, comment := none, gradedBy := 1, gradedAt := 3 },
       { id := 4, studentId := 5, courseId := 10, assignmentId := none, score := 70, comment := none, gradedBy := 1, gradedAt := 4 },
       { id := 5, studentId := 5, courseId := 11, assignmentId := none, score := 70, comment := none, gradedBy := 1, gradedAt := 5 },
       { id := 6, studentId := 5, courseId := 11, assignmentId := none, score := 60, comment := none, gradedBy := 1, gradedAt := 6 },
       { id := 7, studentId := 5, courseId := 11, assignmentId := none, score := 80, comment := none, gradedBy := 1, gradedAt := 7 }],
    attendance := [], infractions := [], nextId := 300 }

/-- Course 30, used by the bulk-attendance theorems: taught by teacher 1
with students 1, 2, 3, 4 enrolled. -/
def course30 : Course :=
  { id := 30, name := "Gym", courseCode := "GYM1", description := "",
    teacherId := 1, students := [1, 2, 3, 4] }

/-- Store for the bulk-attendance theorems. -/
def dbBulk : DB :=
  { users := [teacher1], courses := [course30],
    grades := [], attendance := [], infractions := [], nextId := 400 }

/-- The spec's bulk example: five records, one (student 6) not enrolled. -/
def bulkRecs : List BulkRecord :=
  [{ studentId := 1, status := AttStatus.absent, reason := none },
   { studentId := 2, status := AttStatus.excused, reason := some "sick" },
   { studentId := 3, status := AttStatus.absent, reason := none },
   { studentId := 6, status := AttStatus.absent, reason := none },
   { studentId := 4, status := AttStatus.absent, reason := none }]

/-!  ### Helper lemmas  -/

/-- `updateFirst` keeps the length of the list. -/
theorem length_updateFirst (p : α → Bool) (f : α → α) (l : List α) :
    (updateFirst p f l).length = l.length := by
  induction l with
  | nil => rfl
  | cons a t ih =>
      by_cases h : p a <;> simp [updateFirst, h, ih]

/-- Every element of `updateFirst p f l` is an element of `l` or the image
under `f` of the first element of `l` satisfying `p`. -/
theorem mem_updateFirst {p : α → Bool} {f : α → α} {l : List α} {x : α} :
    x ∈ updateFirst p f l → x ∈ l ∨ ∃ a, l.find? p = some a ∧ x = f a := by
  induction l with
  | nil =>
      intro hx
      simp [updateFirst] at hx
  | cons a t ih =>
      intro hx
      by_cases h : p a
      · simp only [updateFirst, if_pos h] at hx
        rcases List.mem_cons.mp hx with hx | hx
        · exact Or.inr ⟨a, by simp [List.find?_cons, h], hx⟩
        · exact Or.inl (List.mem_cons_of_mem _ hx)
      · simp only [updateFirst, if_neg h] at hx
        rcases List.mem_cons.mp hx with hx | hx
        · exact Or.inl (by simp [hx])
        · rcases ih hx with hx' | ⟨b, hb, hxb⟩
          · exact Or.inl (List.mem_cons_of_mem _ hx')
          · exact Or.inr ⟨b, by simp [List.find?_cons, h, hb], hxb⟩

/-- If the first element satisfying `p` is fixed by `f`, `updateFirst` is
the identity. -/
theorem updateFirst_eq_of_fixed {p : α → Bool} {f : α → α} {l : List α} {a : α}
    (h : l.find? p = some a) (hf : f a = a) : updateFirst p f l = l := by
  induction l with
  | nil => simp at h
  | cons b t ih =>
      by_cases hb : p b
      · simp only [List.find?_cons, hb, cond_true] at h
        cases h
        simp [updateFirst, hb, hf]
      · simp only [List.find?_cons, hb, cond_false] at h
        simp [updateFirst, hb, ih h]

/-- If `f` does not change whether `p` holds, `find?` after `updateFirst`
returns the image of the original first match. -/
theorem find?_updateFirst {p : α → Bool} {f : α → α} {l : List α} {a : α}
    (hpf : ∀ x, p (f x) = p x) (h : l.find? p = some a) :
    (updateFirst p f l).find? p = some (f a) := by
  induction l with
  | nil => simp at h
  | cons b t ih =>
      by_cases hb : p b
      · simp only [List.find?_cons, hb, cond_true] at h
        cases h
        simp [updateFirst, hb, List.find?_cons, hpf]
      · simp only [List.find?_cons, hb, cond_false] at h
        simp [updateFirst, hb, List.find?_cons, ih h]

/-- An attendance record matches the `(studentId, courseId, date)` lookup
predicate exactly when its key is that triple. -/
theorem attKeyMatch_iff {sid cid d : Nat} {a : Attendance} :
    attKeyMatch sid cid d a = true ↔ attKey a = (sid, cid, d) := by
  simp [attKeyMatch, attKey, Prod.ext_iff, and_assoc]

/-- The `$set` stage of the attendance upsert does not change the record's
key. -/
theorem attKey_setFields (a : Attendance) (st : AttStatus) (r : Option String)
    (uid now : Nat) :
    attKey { a with status := st, reason := r, recordedBy := uid, recordedAt := now } = attKey a :=
  rfl

/-- `updateFirst` with a key-preserving function keeps the multiset of
keys of an attendance store. -/
theorem map_attKey_updateFirst {p : Attendance → Bool} {f : Attendance → Attendance}
    (hf : ∀ a, attKey (f a) = attKey a) (l : List Attendance) :
    (updateFirst p f l).map attKey = l.map attKey := by
  induction l with
  | nil => rfl
  | cons a t ih =>
      by_cases h : p a <;> simp [updateFirst, h, ih, hf]

/-- The uniqueness invariant of §3 of the design: at most one attendance
record per `(studentId, courseId, date)` key. -/
def uniquePerKey (l : List Attendance) : Prop :=
  (l.map attKey).Nodup

/-- The upserted store's keys: unchanged when the key already existed,
extended by the new key otherwise. -/
theorem map_attKey_upsert (store : List Attendance) (sid cid d : Nat)
    (st : AttStatus) (r : Option String) (uid now : Nat) :
    (upsertAttendance store sid cid d st r uid now).1.map attKey = store.map attKey
    ∨ ((upsertAttendance store sid cid d st r uid now).1.map attKey
        = store.map attKey ++ [(sid, cid, d)]
       ∧ (sid, cid, d) ∉ store.map attKey) := by
  cases hfind : store.find? (attKeyMatch sid cid d) with
  | some a0 =>
      left
      simp only [upsertAttendance, hfind]
      exact map_attKey_updateFirst (fun a => attKey_setFields a st r uid now) store
  | none =>
      right
      constructor
      · simp [upsertAttendance, hfind, attKey]
      · intro hk
        rcases List.mem_map.mp hk with ⟨a, ha, hka⟩
        have := List.find?_eq_none.mp hfind a ha
        exact this (attKeyMatch_iff.mpr hka)

/-- Upserting preserves the at-most-one-record-per-key invariant. -/
theorem uniquePerKey_upsert {store : List Attendance} (sid cid d : Nat)
    (st : AttStatus) (r : Option String) (uid now : Nat)
    (h : uniquePerKey store) :
    uniquePerKey (upsertAttendance store sid cid d st r uid now).1 := by
  rcases map_attKey_upsert store sid cid d st r uid now with heq | ⟨heq, hnot⟩
  · unfold uniquePerKey
    rw [heq]
    exact h
  · unfold uniquePerKey
    rw [heq]
    simp only [List.nodup_append, List.nodup_cons, List.nodup_nil]
    exact ⟨h, by simp, by simpa [List.disjoint_right] using hnot⟩

/-- Existing keys survive an upsert. -/
theorem mem_map_attKey_upsert_old {store : List Attendance} {k : Nat × Nat × Nat}
    (sid cid d : Nat) (st : AttStatus) (r : Option String) (uid now : Nat)
    (h : k ∈ store.map attKey) :
    k ∈ (upsertAttendance store sid cid d st r uid now).1.map attKey := by
  rcases map_attKey_upsert store sid cid d st r uid now with heq | ⟨heq, _⟩
  · rw [heq]; exact h
  · rw [heq]; exact List.mem_append_left _ h

/-- An upsert leaves its own key in the store. -/
theorem mem_map_attKey_upsert_new (store : List Attendance) (sid cid d : Nat)
    (st : AttStatus) (r : Option String) (uid now : Nat) :
    (sid, cid, d) ∈ (upsertAttendance store sid cid d st r uid now).1.map attKey := by
  cases hfind : store.find? (attKeyMatch sid cid d) with
  | some a0 =>
      have ha0 : attKey a0 = (sid, cid, d) := attKeyMatch_iff.mp (List.find?_some hfind)
      have hmem : a0 ∈ store := List.mem_of_find?_eq_some hfind
      have hk : (sid, cid, d) ∈ store.map attKey :=
        List.mem_map.mpr ⟨a0, hmem, ha0⟩
      simp only [upsertAttendance, hfind]
      rw [map_attKey_updateFirst (fun a => attKey_setFields a st r uid now) store]
      exact hk
  | none =>
      simp [upsertAttendance, hfind, attKey]

/-- `maxList` of a nonempty list is an element of it. -/
theorem foldl_max_mem (l : List Rat) (a : Rat) : l.foldl max a = a ∨ l.foldl max a ∈ l := by
  induction l generalizing a with
  | nil => exact Or.inl rfl
  | cons b t ih =>
      rcases ih (max a b) with h | h
      · rcases max_choice a b with hm | hm
        · exact Or.inl (by rw [List.foldl_cons, h, hm])
        · exact Or.inr (by rw [List.foldl_cons, h, hm]; exact List.mem_cons_self b t)
      · exact Or.inr (List.mem_cons_of_mem _ h)

/-- The initial accumulator bounds `foldl max` from below. -/
theorem le_foldl_max_init (l : List Rat) (a : Rat) : a ≤ l.foldl max a := by
  induction l generalizing a with
  | nil => exact le_refl a
  | cons b t ih => exact le_trans (le_max_left a b) (ih (max a b))

/-- Every element bounds `foldl max` from below. -/
theorem le_foldl_max {l : List Rat} {x : Rat} (a : Rat) :
    x ∈ l → x ≤ l.foldl max a := by
  induction l generalizing a with
  | nil =>
      intro hx
      simp at hx
  | cons b t ih =>
      intro hx
      rcases List.mem_cons.mp hx with h | h
      · subst h
        exact le_trans (le_max_right a x) (le_foldl_max_init t (max a x))
      · exact ih (max a b) h

/-- `minList` analogue of `foldl_max_mem`. -/
theorem foldl_min_mem (l : List Rat) (a : Rat) : l.foldl min a = a ∨ l.foldl min a ∈ l := by
  induction l generalizing a with
  | nil => exact Or.inl rfl
  | cons b t ih =>
      rcases ih (min a b) with h | h
      · rcases min_choice a b with hm | hm
        · exact Or.inl (by rw [List.foldl_cons, h, hm])
        · exact Or.inr (by rw [List.foldl_cons, h, hm]; exact List.mem_cons_self b t)
      · exact Or.inr (List.mem_cons_of_mem _ h)

/-- The initial accumulator bounds `foldl min` from above. -/
theorem foldl_min_le_init (l : List Rat) (a : Rat) : l.foldl min a ≤ a := by
  induction l generalizing a with
  | nil => exact le_refl a
  | cons b t ih => exact le_trans (ih (min a b)) (min_le_left a b)

/-- `foldl min` is below every element. -/
theorem foldl_min_le {l : List Rat} {x : Rat} (a : Rat) :
    x ∈ l → l.foldl min a ≤ x := by
  induction l generalizing a with
  | nil =>
      intro hx
      simp at hx
  | cons b t ih =>
      intro hx
      rcases List.mem_cons.mp hx with h | h
      · subst h
        exact le_trans (foldl_min_le_init t (min a x)) (min_le_right a x)
      · exact ih (min a b) h

/-- `maxList` of a nonempty list is its maximum. -/
theorem maxList_spec {l : List Rat} (h : l ≠ []) :
    maxList l ∈ l ∧ ∀ x ∈ l, x ≤ maxList l := by
  cases l with
  | nil => exact absurd rfl h
  | cons b t =>
      constructor
      · rcases foldl_max_mem t b with h' | h'
        · rw [maxList, h']; exact List.mem_cons_self b t
        · rw [maxList]; exact List.mem_cons_of_mem _ h'
      · intro x hx
        rcases List.mem_cons.mp hx with h' | h'
        · subst h'; exact le_foldl_max_init t x
        · exact le_foldl_max b h'

/-- `minList` of a nonempty list is its minimum. -/
theorem minList_spec {l : List Rat} (h : l ≠ []) :
    minList l ∈ l ∧ ∀ x ∈ l, minList l ≤ x := by
  cases l with
  | nil => exact absurd rfl h
  | cons b t =>
      constructor
      · rcases foldl_min_mem t b with h' | h'
        · rw [minList, h']; exact List.mem_cons_self b t
        · rw [minList]; exact List.mem_cons_of_mem _ h'
      · intro x hx
        rcases List.mem_cons.mp hx with h' | h'
        · subst h'; exact foldl_min_le_init t x
        · exact foldl_min_le b h'

/-- The HTTP status of a response. -/
def respStatus : HResp α → Nat
  | HResp.ok s _ => s
  | HResp.err s _ => s

/-- The course document of a successful `POST /api/courses` response. -/
def createdCourse : HResp (DB × Course) → Option Course
  | HResp.ok _ p => some p.2
  | HResp.err _ _ => none

/-- The infraction document of a successful `POST /api/infractions`
response. -/
def createdInfraction : HResp (DB × StoredInfraction) → Option StoredInfraction
  | HResp.ok _ p => some p.2
  | HResp.err _ _ => none

/-!  ### C1 — teacher scoping of GET /api/grades  -/

/-- C1 (counterexample). The claim says caller-supplied filters — including
a `studentId` filter alone — can only narrow the teacher's mandatory
owned-course scope.  In `dbScope`, teacher 1 owns only course 10, yet a
query filtering on `studentId = 5` with no `courseId` returns `grade101`,
whose `courseId` 20 is not among teacher 1's owned courses: the
`studentId`-only filter escapes the scope instead of narrowing it. -/
theorem listGrades_studentId_filter_widens_scope :
    listGrades dbScope teacher1U (some 5) none 1 20 =
      HResp.ok 200 ([grade101, grade100], { total := 2, page := 1, pages := 1 })
    ∧ grade101.courseId ∉ ownedCourseIds dbScope teacher1U.id := by
  constructor
  · rfl
  · decide

/-- C1 (amended). For a teacher caller: (a) with no caller filters, every
returned grade's `courseId` belongs to a course the teacher owns, and
(b) an explicit `courseId` filter naming a course the teacher does not
own (or no course at all) yields 403, not an empty list.  (The claim's
further assertion that every caller filter can only narrow this scope is
false: a `studentId` filter alone removes the owned-course restriction —
see the counterexample.) -/
theorem listGrades_teacher_scope :
    (∀ (db : DB) (u : Identity) (page limit : Nat) (l : List Grade) (pg : Pagination),
       u.role = Role.teacher →
       listGrades db u none none page limit = HResp.ok 200 (l, pg) →
       ∀ g ∈ l, g.courseId ∈ ownedCourseIds db u.id)
    ∧ (∀ (db : DB) (u : Identity) (sidq : Option Nat) (cid page limit : Nat),
       u.role = Role.teacher →
       (∀ c, findCourse db cid = some c → c.teacherId ≠ u.id) →
       listGrades db u sidq (some cid) page limit =
         HResp.err 403 "Access denied to this course") := by
  constructor
  · intro db u page limit l pg hrole h g hg
    unfold listGrades at h
    rw [hrole] at h
    simp only [Option.isNone_none, Bool.and_self, if_true] at h
    cases h
    have hg1 : g ∈ List.insertionSort (fun g1 g2 => g2.gradedAt ≤ g1.gradedAt)
        (db.grades.filter (gradeMatches
          { studentId := none, courseId := none, courseIdIn := some (ownedCourseIds db u.id) })) :=
      List.mem_of_mem_drop (List.mem_of_mem_take hg)
    have hg2 := (List.mem_insertionSort _).mp hg1
    have hg3 := (List.mem_filter.mp hg2).2
    simp only [gradeMatches, Bool.and_eq_true, decide_eq_true_eq] at hg3
    have := hg3.2
    simpa [List.contains, List.elem_iff] using this
  · intro db u sidq cid page limit hrole hown
    unfold listGrades
    rw [hrole]
    have hcond : ((some cid).isNone && sidq.isNone) = false := rfl
    rw [hcond]
    simp only [Bool.false_eq_true, if_false]
    cases hc : findCourse db cid with
    | none => simp
    | some c =>
        have : ¬ c.teacherId = u.id := hown c hc
        simp [this]

/-- C1 (witness).  In `dbScope`, teacher 1's unfiltered listing contains
`grade100`, and the theorem places its `courseId` among teacher 1's owned
courses; the second conjunct instantiates the 403 branch at course 20. -/
theorem listGrades_teacher_scope_witness :
    grade100.courseId ∈ ownedCourseIds dbScope teacher1U.id
    ∧ listGrades dbScope teacher1U none (some 20) 1 20 =
        HResp.err 403 "Access denied to this course" :=
  ⟨listGrades_teacher_scope.1 dbScope teacher1U 1 20
      [grade100] { total := 1, page := 1, pages := 1 } rfl rfl
      grade100 (by decide),
   listGrades_teacher_scope.2 dbScope teacher1U none 20 1 20 rfl
      (by
        intro c hc
        have h20 : findCourse dbScope 20 = some course20 := rfl
        rw [h20] at hc
        injection hc with h
        subst h
        decide)⟩

/-!  ### C2 — missing referenced entities  -/

/-- C2 (counterexample). The claim says every operation whose primary
target references a nonexistent Course/User/Assignment yields a
404-equivalent.  `POST /api/grades` for the nonexistent student 99
returns status 400 ("Invalid student ID"), a validation status, not a
404; the same route also answers 400 for a nonexistent course. -/
theorem createGrade_missing_student_not_404 :
    createGrade dbScope teacher1U (some 99) (some 10) none (some 85) none 7 =
      HResp.err 400 "Invalid student ID"
    ∧ createGrade dbScope teacher1U (some 5) (some 999) none (some 85) none 7 =
      HResp.err 400 "Invalid course ID"
    ∧ (400 : Nat) ≠ 404 :=
  ⟨rfl, rfl, by decide⟩

/-- C2 (amended). Referenced-entity existence is checked before the
ownership check and surfaced distinctly from Forbidden (403), but the
status is not uniformly 404: `POST /api/attendance` answers 404 for a
missing course, while `POST /api/grades` answers 400 for a missing
student or a missing course.  Each conclusion holds for every authorized
caller — in particular for teachers who would fail the subsequent
ownership check — which is the formal content of "existence is evaluated
before the permission check". -/
theorem missing_target_before_ownership :
    (∀ (db : DB) (u : Identity) (sid cid d : Nat) (st : AttStatus)
        (r : Option String) (now : Nat),
       (u.role = Role.admin ∨ u.role = Role.teacher) →
       findCourse db cid = none →
       createAttendance db u sid cid d st r now = HResp.err 404 "Course not found")
    ∧ (∀ (db : DB) (u : Identity) (sid cid : Nat) (aid : Option Nat) (sc : Rat)
        (cm : Option String) (now : Nat),
       (u.role = Role.admin ∨ u.role = Role.teacher) →
       sc ≠ 0 →
       findStudent db sid = none →
       createGrade db u (some sid) (some cid) aid (some sc) cm now =
         HResp.err 400 "Invalid student ID")
    ∧ (∀ (db : DB) (u : Identity) (sid cid : Nat) (aid : Option Nat) (sc : Rat)
        (cm : Option String) (now : Nat) (x : User),
       (u.role = Role.admin ∨ u.role = Role.teacher) →
       sc ≠ 0 →
       findStudent db sid = some x →
       findCourse db cid = none →
       createGrade db u (some sid) (some cid) aid (some sc) cm now =
         HResp.err 400 "Invalid course ID")
    ∧ (400 : Nat) ≠ 403 ∧ (404 : Nat) ≠ 403 := by
  refine ⟨?_, ?_, ?_, by decide, by decide⟩
  · intro db u sid cid d st r now hrole hc
    unfold createAttendance
    have : (!(u.role = Role.admin || u.role = Role.teacher)) = false := by
      rcases hrole with h | h <;> simp [h]
    rw [this]
    simp only [Bool.false_eq_true, if_false]
    rw [hc]
  · intro db u sid cid aid sc cm now hrole hsc hstu
    unfold createGrade
    have : (!(u.role = Role.admin || u.role = Role.teacher)) = false := by
      rcases hrole with h | h <;> simp [h]
    rw [this]
    simp only [Bool.false_eq_true, if_false]
    rw [if_neg hsc, hstu]
  · intro db u sid cid aid sc cm now x hrole hsc hstu hc
    unfold createGrade
    have : (!(u.role = Role.admin || u.role = Role.teacher)) = false := by
      rcases hrole with h | h <;> simp [h]
    rw [this]
    simp only [Bool.false_eq_true, if_false]
    rw [if_neg hsc, hstu, hc]

/-- C2 (witness).  The three branches instantiated in `dbScope`: a
nonexistent course 999 for attendance, the nonexistent student 99 and
the nonexistent course 999 for grades, each under teacher 1. -/
theorem missing_target_before_ownership_witness :
    createAttendance dbScope teacher1U 5 999 3 AttStatus.excused none 9 =
      HResp.err 404 "Course not found"
    ∧ createGrade dbScope teacher1U (some 99) (some 10) none (some 85) none 7 =
      HResp.err 400 "Invalid student ID" :=
  ⟨missing_target_before_ownership.1 dbScope teacher1U 5 999 3 AttStatus.excused none 9
      (Or.inr rfl) rfl,
   missing_target_before_ownership.2.1 dbScope teacher1U 99 10 none 85 none 7
      (Or.inr rfl) (by decide) rfl⟩

/-!  ### C3 — course creation and teacher assignment  -/

/-- C3 (counterexample). The claim says a teacher specifying a
`teacherId` different from their own id is rejected.  In `dbScope`,
teacher 1 creates a course naming teacher 2 as `teacherId`: the request
succeeds with status 201 and the course is owned by teacher 2 — the only
check the route performs on the supplied id is that it belongs to some
user with role `teacher`. -/
theorem createCourse_other_teacher_accepted :
    respStatus (createCourse dbScope teacher1U "X" "X1" "" (some 2)) = 201
    ∧ (createdCourse (createCourse dbScope teacher1U "X" "X1" "" (some 2))).map
        Course.teacherId = some 2
    ∧ teacher1U.id ≠ 2 := by
  refine ⟨rfl, rfl, by decide⟩

/-- C3 (amended). A teacher creating a course without a `teacherId`
becomes the owner.  A supplied `teacherId` is only validated to belong to
an existing user with role `teacher`: any valid teacher id — the caller's
own or another teacher's — is accepted and becomes the course's owner,
and only an id that is not a valid teacher is rejected (400
"Invalid teacher ID").  There is no admin-only restriction on assigning a
different teacher at creation time. -/
theorem createCourse_owner_assignment :
    (∀ (db : DB) (u : Identity) (nm code descr : String),
       u.role = Role.teacher →
       db.courses.find? (fun c => c.courseCode = code) = none →
       ∃ db' c, createCourse db u nm code descr none = HResp.ok 201 (db', c)
         ∧ c.teacherId = u.id)
    ∧ (∀ (db : DB) (u : Identity) (nm code descr : String) (tid : Nat) (x : User),
       u.role = Role.teacher →
       db.courses.find? (fun c => c.courseCode = code) = none →
       db.users.find? (fun y => y.id = tid && y.role = Role.teacher) = some x →
       ∃ db' c, createCourse db u nm code descr (some tid) = HResp.ok 201 (db', c)
         ∧ c.teacherId = tid)
    ∧ (∀ (db : DB) (u : Identity) (nm code descr : String) (tid : Nat),
       u.role = Role.teacher →
       db.courses.find? (fun c => c.courseCode = code) = none →
       db.users.find? (fun y => y.id = tid && y.role = Role.teacher) = none →
       createCourse db u nm code descr (some tid) =
         HResp.err 400 "Invalid teacher ID") := by
  refine ⟨?_, ?_, ?_⟩
  · intro db u nm code descr hrole hcode
    unfold createCourse
    have h1 : (!(u.role = Role.admin || u.role = Role.teacher)) = false := by
      simp [hrole]
    rw [h1]
    simp only [Bool.false_eq_true, if_false, hcode, Option.isSome_none,
      Bool.false_eq_true, if_false]
    exact ⟨_, _, rfl, rfl⟩
  · intro db u nm code descr tid x hrole hcode htid
    unfold createCourse
    have h1 : (!(u.role = Role.admin || u.role = Role.teacher)) = false := by
      simp [hrole]
    rw [h1]
    simp only [Bool.false_eq_true, if_false, hcode, Option.isSome_none,
      Bool.false_eq_true, if_false, htid]
    exact ⟨_, _, rfl, rfl⟩
  · intro db u nm code descr tid hrole hcode htid
    unfold createCourse
    have h1 : (!(u.role = Role.admin || u.role = Role.teacher)) = false := by
      simp [hrole]
    rw [h1]
    simp only [Bool.false_eq_true, if_false, hcode, Option.isSome_none,
      Bool.false_eq_true, if_false, htid]

/-- C3 (witness).  Teacher 1 creating "Y1" with no `teacherId` in
`dbScope` becomes the owner; the invalid id 99 is rejected. -/
theorem createCourse_owner_assignment_witness :
    (∃ db' c, createCourse dbScope teacher1U "Y" "Y1" "" none = HResp.ok 201 (db', c)
      ∧ c.teacherId = teacher1U.id)
    ∧ createCourse dbScope teacher1U "Y" "Y1" "" (some 99) =
        HResp.err 400 "Invalid teacher ID" :=
  ⟨createCourse_owner_assignment.1 dbScope teacher1U "Y" "Y1" "" rfl rfl,
   createCourse_owner_assignment.2.2 dbScope teacher1U "Y" "Y1" "" 99 rfl rfl rfl⟩

/-!  ### C4 — at most one attendance record per (studentId, courseId, date)  -/

/-- Appending a record whose key is absent preserves the per-key
uniqueness invariant. -/
theorem uniquePerKey_append_new {store : List Attendance} {a : Attendance}
    (hfind : store.find? (attKeyMatch a.studentId a.courseId a.date) = none)
    (h : uniquePerKey store) : uniquePerKey (store ++ [a]) := by
  unfold uniquePerKey at h ⊢
  rw [List.map_append]
  simp only [List.map_cons, List.map_nil, List.nodup_append, List.nodup_cons,
    List.nodup_nil, List.not_mem_nil, not_false_eq_true, and_true, true_and]
  refine ⟨h, ?_⟩
  intro k hk hk1
  rcases List.mem_map.mp hk with ⟨x, hx, hkx⟩
  have hfalse := List.find?_eq_none.mp hfind x hx
  apply hfalse
  apply attKeyMatch_iff.mpr
  rw [hkx]
  simp only [List.mem_singleton] at hk1
  rw [hk1]
  rfl

/-- The per-record bulk loop preserves the per-key uniqueness invariant. -/
theorem uniquePerKey_processBulk (course : Course) (uid cid d now : Nat) :
    ∀ (recs : List BulkRecord) (store : List Attendance),
      uniquePerKey store →
      uniquePerKey (processBulk course uid cid d now recs store).1 := by
  intro recs
  induction recs with
  | nil =>
      intro store h
      exact h
  | cons r rs ih =>
      intro store h
      by_cases hcont : course.students.contains r.studentId
      · simp only [processBulk, hcont, if_true]
        exact ih _ (uniquePerKey_upsert r.studentId cid d r.status r.reason uid now h)
      · simp only [processBulk, hcont, Bool.false_eq_true, if_false]
        exact ih _ h

/-- C4 (counterexample). The claim says a second attendance write for an
already-existing `(studentId, courseId, date)` triple — in the single
create as well as the bulk upsert — updates the existing record.  In
`dbScope` a record (student 5, course 10, date 3, status `absent`)
exists; a second `POST /api/attendance` for the same triple with status
`excused` is rejected with 400 and the stored record keeps status
`absent`: the single-create endpoint refuses rather than updates. -/
theorem createAttendance_duplicate_rejected_not_updated :
    (dbScope.attendance.find? (attKeyMatch 5 10 3)).isSome = true
    ∧ createAttendance dbScope teacher1U 5 10 3 AttStatus.excused none 9 =
        HResp.err 400 "Attendance record already exists for this date. Use PUT to update."
    ∧ (dbScope.attendance.find? (attKeyMatch 5 10 3)).map Attendance.status =
        some AttStatus.absent :=
  ⟨rfl, rfl, rfl⟩

/-- C4 (amended). At most one attendance record per
`(studentId, courseId, date)` triple is an invariant of both write
operations: the single create (which refuses a duplicate triple with an
error rather than updating it — see the counterexample) and the bulk
upsert, which for an existing triple overwrites the stored record in
place: the store keeps its length and the record at the key carries the
new `status`/`reason`/`recordedBy`/`recordedAt`. -/
theorem attendance_unique_per_key :
    (∀ (db : DB) (u : Identity) (sid cid d : Nat) (st : AttStatus)
        (r : Option String) (now s : Nat) (db' : DB) (a : Attendance),
       uniquePerKey db.attendance →
       createAttendance db u sid cid d st r now = HResp.ok s (db', a) →
       uniquePerKey db'.attendance)
    ∧ (∀ (db : DB) (u : Identity) (cidq dq : Option Nat)
        (recsq : Option (List BulkRecord)) (now s : Nat) (db' : DB)
        (res : List Attendance) (errs : List BulkError),
       uniquePerKey db.attendance →
       bulkAttendance db u cidq dq recsq now = HResp.ok s (db', res, errs) →
       uniquePerKey db'.attendance)
    ∧ (∀ (store : List Attendance) (sid cid d : Nat) (st : AttStatus)
        (r : Option String) (uid now : Nat) (a0 : Attendance),
       store.find? (attKeyMatch sid cid d) = some a0 →
       (upsertAttendance store sid cid d st r uid now).1.length = store.length
       ∧ (upsertAttendance store sid cid d st r uid now).1.find? (attKeyMatch sid cid d)
           = some { a0 with status := st, reason := r, recordedBy := uid, recordedAt := now }) := by
  refine ⟨?_, ?_, ?_⟩
  · intro db u sid cid d st r now s db' a hu h
    unfold createAttendance at h
    split at h
    · simp at h
    · split at h
      · simp at h
      · split at h
        · simp at h
        · split at h
          · simp at h
          · split at h
            · simp at h
            · rename_i hfind
              injection h with h1 h2
              injection h2 with h3 h4
              subst h3
              exact uniquePerKey_append_new hfind hu
  · intro db u cidq dq recsq now s db' res errs hu h
    unfold bulkAttendance at h
    split at h
    · simp at h
    · cases cidq with
      | none => simp at h
      | some cid =>
          cases dq with
          | none => simp at h
          | some d =>
              cases recsq with
              | none => simp at h
              | some records =>
                  dsimp only at h
                  cases hc : findCourse db cid with
                  | none =>
                      rw [hc] at h
                      simp at h
                  | some course =>
                      rw [hc] at h
                      dsimp only at h
                      split at h
                      · simp at h
                      · injection h with h1 h2
                        injection h2 with h3 h4
                        subst h3
                        exact uniquePerKey_processBulk course u.id cid d now records db.attendance hu
  · intro store sid cid d st r uid now a0 hfind
    constructor
    · simp only [upsertAttendance, hfind]
      exact length_updateFirst _ _ _
    · simp only [upsertAttendance, hfind]
      exact find?_updateFirst (fun x => rfl) hfind

/-- C4 (witness).  In `dbBulk` (with an empty attendance store, hence
trivially unique) a successful single create preserves the invariant; the
in-place-update clause is instantiated on the store of `dbScope`, which
holds a record with key (5, 10, 3). -/
theorem attendance_unique_per_key_witness :
    uniquePerKey
      (DB.attendance
        { dbBulk with attendance :=
            (dbBulk.attendance ++
              [{ studentId := 1, courseId := 30, date := 4, status := AttStatus.absent,
                 reason := none, recordedBy := 1, recordedAt := 11 }]) })
    ∧ (upsertAttendance dbScope.attendance 5 10 3 AttStatus.excused none 1 9).1.length =
        dbScope.attendance.length :=
  ⟨attendance_unique_per_key.1 dbBulk teacher1U 1 30 4 AttStatus.absent none 11 201 _ _
      (by unfold uniquePerKey; decide) rfl,
   (attendance_unique_per_key.2.2 dbScope.attendance 5 10 3 AttStatus.excused none 1 9
      { studentId := 5, courseId := 10, date := 3, status := AttStatus.absent,
        reason := none, recordedBy := 1, recordedAt := 3 } rfl).1⟩

/-!  ### C5 — per-record bulk attendance validation  -/

/-- Specification of the per-record bulk loop: the `results` list has one
entry per enrolled record, the `errors` list is exactly the unenrolled
records mapped to error entries (in encounter order), existing keys of
the store survive, and every enrolled record leaves a record with its
`(studentId, courseId, date)` key in the final store. -/
theorem processBulk_spec (course : Course) (uid cid d now : Nat) :
    ∀ (recs : List BulkRecord) (store : List Attendance),
      (processBulk course uid cid d now recs store).2.1.length =
        (recs.filter (fun r => course.students.contains r.studentId)).length
      ∧ (processBulk course uid cid d now recs store).2.2 =
          (recs.filter (fun r => !(course.students.contains r.studentId))).map
            (fun r => { studentId := r.studentId,
                        message := "Student is not enrolled in this course" })
      ∧ (∀ k ∈ store.map attKey, k ∈ (processBulk course uid cid d now recs store).1.map attKey)
      ∧ (∀ r ∈ recs, course.students.contains r.studentId = true →
          (r.studentId, cid, d) ∈ (processBulk course uid cid d now recs store).1.map attKey) := by
  intro recs
  induction recs with
  | nil =>
      intro store
      refine ⟨rfl, rfl, ?_, ?_⟩
      · intro k hk
        exact hk
      · intro r hr
        simp at hr
  | cons r rs ih =>
      intro store
      by_cases hcont : course.students.contains r.studentId
      · obtain ⟨ih1, ih2, ih3, ih4⟩ :=
          ih (upsertAttendance store r.studentId cid d r.status r.reason uid now).1
        have hmem : r.studentId ∈ course.students := by simpa using hcont
        have hfp : List.filter (fun x => course.students.contains x.studentId) (r :: rs)
            = r :: List.filter (fun x => course.students.contains x.studentId) rs := by
          simp [List.filter_cons, hmem]
        have hfn : List.filter (fun x => !(course.students.contains x.studentId)) (r :: rs)
            = List.filter (fun x => !(course.students.contains x.studentId)) rs := by
          simp [List.filter_cons, hmem]
        refine ⟨?_, ?_, ?_, ?_⟩
        · simp only [processBulk, hcont, if_true]
          rw [hfp, List.length_cons, List.length_cons, ih1]
        · simp only [processBulk, hcont, if_true]
          rw [hfn, ih2]
        · intro k hk
          simp only [processBulk, hcont, if_true]
          exact ih3 k (mem_map_attKey_upsert_old r.studentId cid d r.status r.reason uid now hk)
        · intro r' hr' hcont'
          simp only [processBulk, hcont, if_true]
          rcases List.mem_cons.mp hr' with h | h
          · subst h
            exact ih3 _ (mem_map_attKey_upsert_new store r'.studentId cid d r'.status r'.reason uid now)
          · exact ih4 r' h hcont'
      · obtain ⟨ih1, ih2, ih3, ih4⟩ := ih store
        have hnmem : r.studentId ∉ course.students := by simpa using hcont
        have hfp : List.filter (fun x => course.students.contains x.studentId) (r :: rs)
            = List.filter (fun x => course.students.contains x.studentId) rs := by
          simp [List.filter_cons, hnmem]
        have hfn : List.filter (fun x => !(course.students.contains x.studentId)) (r :: rs)
            = r :: List.filter (fun x => !(course.students.contains x.studentId)) rs := by
          simp [List.filter_cons, hnmem]
        refine ⟨?_, ?_, ?_, ?_⟩
        · simp only [processBulk, hcont, Bool.false_eq_true, if_false]
          rw [hfp, ih1]
        · simp only [processBulk, hcont, Bool.false_eq_true, if_false]
          rw [hfn, List.map_cons, ih2]
        · intro k hk
          simp only [processBulk, hcont, Bool.false_eq_true, if_false]
          exact ih3 k hk
        · intro r' hr' hcont'
          simp only [processBulk, hcont, Bool.false_eq_true, if_false]
          rcases List.mem_cons.mp hr' with h | h
          · subst h
            exact absurd hcont' hcont
          · exact ih4 r' h hcont'

/-- C5. For an authorized caller on an existing course, the bulk
attendance endpoint validates each tuple independently: it answers
status 200 (partial success, never an abort) with one `results` entry per
enrolled tuple and an `errors` entry — in encounter order — for exactly
the unenrolled tuples, and every enrolled tuple ends up upserted: a
record with its `(studentId, courseId, date)` key is in the final
store. -/
theorem bulkAttendance_partial_success
    (db : DB) (u : Identity) (cid d : Nat) (records : List BulkRecord)
    (now : Nat) (course : Course)
    (hrole : u.role = Role.admin ∨ u.role = Role.teacher)
    (hc : findCourse db cid = some course)
    (hperm : u.role = Role.teacher → course.teacherId = u.id) :
    ∃ db' res errs,
      bulkAttendance db u (some cid) (some d) (some records) now =
        HResp.ok 200 (db', res, errs)
      ∧ res.length = (records.filter (fun r => course.students.contains r.studentId)).length
      ∧ errs = (records.filter (fun r => !(course.students.contains r.studentId))).map
          (fun r => { studentId := r.studentId,
                      message := "Student is not enrolled in this course" })
      ∧ (∀ r ∈ records, course.students.contains r.studentId = true →
          (r.studentId, cid, d) ∈ db'.attendance.map attKey) := by
  have h1 : (!(u.role = Role.admin || u.role = Role.teacher)) = false := by
    rcases hrole with h | h <;> simp [h]
  have h2 : (decide (u.role = Role.teacher) && decide (course.teacherId ≠ u.id)) = false := by
    by_cases ht : u.role = Role.teacher
    · simp [ht, hperm ht]
    · simp [ht]
  obtain ⟨p1, p2, _, p4⟩ := processBulk_spec course u.id cid d now records db.attendance
  refine ⟨{ db with attendance := (processBulk course u.id cid d now records db.attendance).1 },
          (processBulk course u.id cid d now records db.attendance).2.1,
          (processBulk course u.id cid d now records db.attendance).2.2,
          ?_, p1, p2, p4⟩
  unfold bulkAttendance
  rw [h1]
  simp only [Bool.false_eq_true, if_false, hc, h2]

/-- C5 (witness).  The spec's example in `dbBulk`: five records of which
one (student 6) is not enrolled in course 30 — the endpoint returns
status 200 with four results and exactly one error entry. -/
theorem bulkAttendance_partial_success_witness :
    ∃ db' res errs,
      bulkAttendance dbBulk teacher1U (some 30) (some 4) (some bulkRecs) 11 =
        HResp.ok 200 (db', res, errs)
      ∧ res.length = 4
      ∧ errs = [{ studentId := 6, message := "Student is not enrolled in this course" }] := by
  obtain ⟨db', res, errs, heq, hlen, herrs, _⟩ :=
    bulkAttendance_partial_success dbBulk teacher1U 30 4 bulkRecs 11 course30
      (Or.inr rfl) rfl (fun _ => rfl)
  refine ⟨db', res, errs, heq, ?_, ?_⟩
  · rw [hlen]
    decide
  · rw [herrs]
    decide

/-!  ### C6 — course grade statistics  -/

/-- C6. For every successful statistics response: `count` is the number
of grades of the course; with zero grades every other field is the
explicit no-data marker `none` (not zero); otherwise `average` is
sum/count, `highest`/`lowest` are a maximum/minimum of the score list,
and `median` is computed from an ascending-sorted permutation of the
scores — the average of the two middle values for an even count, the
middle value for an odd count. -/
theorem gradeStats_correct (db : DB) (u : Identity) (cid : Nat) (st : Stats)
    (h : gradeStats db u cid = HResp.ok 200 st) :
    st.count = (courseScores db cid).length
    ∧ (st.count = 0 →
        st = { count := 0, average := none, highest := none, lowest := none, median := none })
    ∧ (st.count ≠ 0 →
        st.average = some ((courseScores db cid).foldl (fun a b => a + b) 0 / (st.count : Rat))
        ∧ (∃ m, st.highest = some m ∧ m ∈ courseScores db cid
            ∧ ∀ x ∈ courseScores db cid, x ≤ m)
        ∧ (∃ m, st.lowest = some m ∧ m ∈ courseScores db cid
            ∧ ∀ x ∈ courseScores db cid, m ≤ x)
        ∧ (∃ sorted, List.Perm (courseScores db cid) sorted
            ∧ List.Sorted (fun a b => a ≤ b) sorted
            ∧ st.median = some (if st.count % 2 = 0 then
                  (sorted.getD (st.count / 2 - 1) 0 + sorted.getD (st.count / 2) 0) / 2
                else sorted.getD (st.count / 2) 0))) := by
  unfold gradeStats at h
  cases hc : findCourse db cid with
  | none =>
      rw [hc] at h
      simp at h
  | some course =>
      rw [hc] at h
      dsimp only at h
      split at h
      · simp at h
      · split at h
        · simp at h
        · split at h
          · rename_i hlen
            injection h with h1 h2
            subst h2
            refine ⟨hlen.symm, fun _ => rfl, fun hne => absurd rfl hne⟩
          · rename_i hlen
            injection h with h1 h2
            subst h2
            have hne : courseScores db cid ≠ [] := by
              intro he
              exact hlen (by rw [he]; rfl)
            refine ⟨rfl, fun h0 => absurd h0 hlen, fun _ => ?_⟩
            refine ⟨rfl, ?_, ?_, ?_⟩
            · exact ⟨maxList (courseScores db cid), rfl,
                (maxList_spec hne).1, (maxList_spec hne).2⟩
            · exact ⟨minList (courseScores db cid), rfl,
                (minList_spec hne).1, (minList_spec hne).2⟩
            · exact ⟨List.insertionSort (fun a b => a ≤ b) (courseScores db cid),
                (List.perm_insertionSort _ _).symm,
                List.sorted_insertionSort _ _, rfl⟩

/-- C6 (witness).  In `dbStats`: course 10 has the scores
60, 70, 80, 90 (inserted unsorted), an even count, and its median is 75;
course 11 has 60, 70, 80, an odd count, and its median is 70; course 12
has no grades and every field except `count` is `none`.  The first
conjunct applies the theorem to the concrete even-count response. -/
theorem gradeStats_correct_witness :
    gradeStats dbStats adminU 10 =
      HResp.ok 200 { count := 4, average := some 75, highest := some 90,
                     lowest := some 60, median := some 75 }
    ∧ (4 : Nat) = (courseScores dbStats 10).length
    ∧ gradeStats dbStats adminU 11 =
      HResp.ok 200 { count := 3, average := some 70, highest := some 80,
                     lowest := some 60, median := some 70 }
    ∧ gradeStats dbStats adminU 12 =
      HResp.ok 200 { count := 0, average := none, highest := none,
                     lowest := none, median := none } :=
  ⟨by with_unfolding_all rfl,
   (gradeStats_correct dbStats adminU 10
      { count := 4, average := some 75, highest := some 90,
        lowest := some 60, median := some 75 } (by with_unfolding_all rfl)).1,
   by with_unfolding_all rfl, by with_unfolding_all rfl⟩

/-!  ### C7 — enrollment uniqueness  -/

/-- C7. For an authorized caller on an existing course and a valid
student: enrolling an already-enrolled student is rejected with 400
("Student already enrolled in this course") — an error, not a silent
no-op — and a successful enrolment appends a student who was not yet in
the list, so it preserves the invariant that every course's `students`
list is duplicate-free. -/
theorem enroll_unique
    (db : DB) (u : Identity) (cid sid : Nat) (course : Course)
    (hrole : u.role = Role.admin ∨ u.role = Role.teacher)
    (hc : findCourse db cid = some course)
    (hperm : u.role = Role.teacher → course.teacherId = u.id)
    (hstu : (findStudent db sid).isSome = true) :
    (course.students.contains sid = true →
      enrollStudent db u cid (some sid) =
        HResp.err 400 "Student already enrolled in this course")
    ∧ (course.students.contains sid = false →
        ∀ db', enrollStudent db u cid (some sid) = HResp.ok 200 db' →
          (∀ c ∈ db.courses, c.students.Nodup) →
          ∀ c ∈ db'.courses, c.students.Nodup) := by
  have h1 : (!(u.role = Role.admin || u.role = Role.teacher)) = false := by
    rcases hrole with h | h <;> simp [h]
  have h2 : (decide (u.role = Role.teacher) && decide (course.teacherId ≠ u.id)) = false := by
    by_cases ht : u.role = Role.teacher
    · simp [ht, hperm ht]
    · simp [ht]
  cases hx : findStudent db sid with
  | none =>
      rw [hx] at hstu
      simp at hstu
  | some x =>
      constructor
      · intro hcont
        unfold enrollStudent
        rw [h1]
        simp only [Bool.false_eq_true, if_false, hc, h2, hx, hcont, if_true]
      · intro hcont db' h hnodup c hcmem
        unfold enrollStudent at h
        rw [h1] at h
        simp only [Bool.false_eq_true, if_false, hc, h2, hx, hcont] at h
        injection h with hs hdb
        subst hdb
        rcases mem_updateFirst hcmem with hcm | ⟨a, ha, hca⟩
        · exact hnodup c hcm
        · have hac : a = course := by
            have : findCourse db cid = some a := ha
            rw [hc] at this
            exact (Option.some.inj this).symm
          subst hac
          subst hca
          have hns : sid ∉ a.students := by
            intro hmem
            rw [show a.students.contains sid = a.students.elem sid from rfl] at hcont
            rw [List.elem_iff.mpr hmem] at hcont
            exact Bool.true_eq_false.mp hcont
          have hnd : a.students.Nodup := hnodup a (List.mem_of_find?_eq_some ha)
          simp [List.nodup_append, hnd, hns]

/-- C7 (witness).  In `dbScope`, student 5 is already enrolled in course
10 and re-enrolment is rejected; enrolling the fresh student 6 leaves
every course's student list duplicate-free. -/
theorem enroll_unique_witness :
    enrollStudent dbScope teacher1U 10 (some 5) =
      HResp.err 400 "Student already enrolled in this course"
    ∧ ∀ c ∈ (updateFirst (fun c => c.id = 10)
          (fun c => { c with students := c.students ++ [6] }) dbScope.courses),
        c.students.Nodup :=
  ⟨(enroll_unique dbScope teacher1U 10 5 course10 (Or.inr rfl) rfl (fun _ => rfl) rfl).1 rfl,
   (enroll_unique dbScope teacher1U 10 6 course10 (Or.inr rfl) rfl (fun _ => rfl) rfl).2 rfl
     { dbScope with courses := (updateFirst (fun c => c.id = 10)
         (fun c => { c with students := c.students ++ [6] }) dbScope.courses) }
     rfl (by decide)⟩

/-!  ### C8 — unenrolling a non-enrolled student  -/

/-- C8. For an authorized caller on an existing course, unenrolling a
student who is not in the course's `students` list is a no-op success:
the response is 200 and the store is returned unchanged — so running the
same unenrol twice succeeds both times with the same final `students`
list (idempotence). -/
theorem unenroll_noop_idempotent
    (db : DB) (u : Identity) (cid sid : Nat) (course : Course)
    (hrole : u.role = Role.admin ∨ u.role = Role.teacher)
    (hc : findCourse db cid = some course)
    (hperm : u.role = Role.teacher → course.teacherId = u.id)
    (hns : sid ∉ course.students) :
    unenrollStudent db u cid sid = HResp.ok 200 db
    ∧ (∀ db₂, unenrollStudent db u cid sid = HResp.ok 200 db₂ →
        unenrollStudent db₂ u cid sid = HResp.ok 200 db₂) := by
  have h1 : (!(u.role = Role.admin || u.role = Role.teacher)) = false := by
    rcases hrole with h | h <;> simp [h]
  have h2 : (decide (u.role = Role.teacher) && decide (course.teacherId ≠ u.id)) = false := by
    by_cases ht : u.role = Role.teacher
    · simp [ht, hperm ht]
    · simp [ht]
  have hfilter : course.students.filter (fun x => x ≠ sid) = course.students := by
    apply List.filter_eq_self.mpr
    intro a ha
    simp only [ne_eq, decide_not, Bool.not_eq_true', decide_eq_false_iff_not]
    intro he
    exact hns (he ▸ ha)
  have hfix : (fun c => { c with students := c.students.filter (fun x => x ≠ sid) }) course
      = course := by
    simp only [hfilter]
  have hmain : unenrollStudent db u cid sid = HResp.ok 200 db := by
    unfold unenrollStudent
    rw [h1]
    simp only [Bool.false_eq_true, if_false, hc, h2]
    rw [updateFirst_eq_of_fixed hc hfix]
  refine ⟨hmain, ?_⟩
  intro db₂ h
  rw [hmain] at h
  injection h with hs hdb
  subst hdb
  exact hmain

/-- C8 (witness).  Student 7 is not enrolled in course 10 of `dbScope`;
unenrolling them answers 200 and leaves the store — in particular course
10's `students` list — exactly as it was, twice in a row. -/
theorem unenroll_noop_idempotent_witness :
    unenrollStudent dbScope teacher1U 10 7 = HResp.ok 200 dbScope
    ∧ unenrollStudent dbScope teacher1U 10 7 = HResp.ok 200 dbScope :=
  ⟨(unenroll_noop_idempotent dbScope teacher1U 10 7 course10
      (Or.inr rfl) rfl (fun _ => rfl) (by decide)).1,
   (unenroll_noop_idempotent dbScope teacher1U 10 7 course10
      (Or.inr rfl) rfl (fun _ => rfl) (by decide)).2 dbScope
     ((unenroll_noop_idempotent dbScope teacher1U 10 7 course10
      (Or.inr rfl) rfl (fun _ => rfl) (by decide)).1)⟩

/-!  ### C9 — admin scope of GET /api/users  -/

/-- C9 (counterexample). The claim says an admin's list-users call has
unrestricted scope and returns users of every role.  `dbScope` holds two
teachers and two students; the admin's unfiltered listing returns only
the two students — the route's base query is hard-coded to
`{ role: 'student' }` for every caller, so `teacher1`, though present in
the store, is missing from the result. -/
theorem listUsers_admin_students_only_cex :
    listUsers dbScope adminU none 1 10 =
      HResp.ok 200 ([student5, student6], { total := 2, page := 1, pages := 1 })
    ∧ teacher1 ∈ dbScope.users
    ∧ teacher1.role ≠ Role.student
    ∧ teacher1 ∉ [student5, student6] := by
  refine ⟨by with_unfolding_all rfl, by decide, by decide, by decide⟩

/-- C9 (amended). The list-users route restricts every caller — admin and
teacher alike — to users with role `student`: whenever the call succeeds,
every returned user is a student.  (Admin reads of the other resources
are unrestricted, but the list-users scope is not.) -/
theorem listUsers_role_student_scope
    (db : DB) (u : Identity) (sq : Option String) (page limit : Nat)
    (l : List User) (pg : Pagination)
    (h : listUsers db u sq page limit = HResp.ok 200 (l, pg)) :
    ∀ x ∈ l, x.role = Role.student := by
  intro x hx
  unfold listUsers at h
  split at h
  · simp at h
  · injection h with hs hval
    cases hval
    cases sq with
    | none =>
        have hx2 := (List.mem_insertionSort _).mp
          (List.mem_of_mem_drop (List.mem_of_mem_take hx))
        have := (List.mem_filter.mp hx2).2
        simpa using this
    | some s =>
        have hx2 := (List.mem_insertionSort _).mp
          (List.mem_of_mem_drop (List.mem_of_mem_take hx))
        have := (List.mem_filter.mp (List.mem_filter.mp hx2).1).2
        simpa using this

/-- C9 (witness).  Applying the scope theorem to the concrete admin call
on `dbScope`: the returned `student5` indeed has role `student`. -/
theorem listUsers_role_student_scope_witness :
    student5.role = Role.student :=
  listUsers_role_student_scope dbScope adminU none 1 10
    [student5, student6] { total := 2, page := 1, pages := 1 }
    (by with_unfolding_all rfl) student5 (by decide)

/-!  ### C10 — infraction resolution fields are never persisted  -/

/-- C10 (code bug). The claim — and the route code, which computes
`resolved: !!resolution` and `severity: severity || 'minor'` — expect the
stored infraction to carry `severity`, `resolution` and a derived
`resolved` flag.  But `infractionSchema` in `models/Infraction.js`
declares none of those paths, so under mongoose's default strict mode the
values are discarded on save: creating an infraction for student 5 with
the non-empty resolution "talked to parents" succeeds (201), yet the
persisted document has no `resolved` flag (in particular not `true`) and
no retained `resolution` text — nor a `severity`. -/
theorem createInfraction_drops_resolution_fields :
    (createdInfraction (createInfraction dbScope teacher1U (some 5) InfType.behavioral
        "fight" none none (some "talked to parents") 12)).map StoredInfraction.resolved
      = some none
    ∧ (createdInfraction (createInfraction dbScope teacher1U (some 5) InfType.behavioral
        "fight" none none (some "talked to parents") 12)).map StoredInfraction.resolution
      = some none
    ∧ (createdInfraction (createInfraction dbScope teacher1U (some 5) InfType.behavioral
        "fight" none none (some "talked to parents") 12)).map StoredInfraction.severity
      = some none
    ∧ respStatus (createInfraction dbScope teacher1U (some 5) InfType.behavioral
        "fight" none none (some "talked to parents") 12) = 201
    ∧ (!(((some "talked to parents").getD "") == "")) = true :=
  ⟨rfl, rfl, rfl, rfl, rfl⟩

end School
